import Mathlib

/-!
Shallow embedding of `src/scripts.py` (APICalypseNow), a batch client for a
text-moderation API.  JSON dictionaries are embedded as structures whose
fields are `Option`-valued where the Python code accesses them through
`.get(key, default)`; floating-point scores are embedded as rationals, since
every operation performed on them (comparison with a threshold, `* 100`) is
exact.  The network is embedded as explicit response values: the POST call of
`post_text_to_moderate` consumes one `PostResponse`, and the GET loop of
`get_moderation_result` consumes a list of `ApiResult` responses, one per
loop iteration.
-/

/-- A sub-item of a text-moderation result entry: the Python code reads
`subitem.get("category", "Unknown")` and `subitem.get("likelihood_score", 0)`. -/
structure SubItem where
  category : Option String
  likelihood_score : Option ℚ
  deriving DecidableEq, Repr

/-- One entry of the `"results"` list inside `"text__moderation"`: the code
reads `result.get("nsfw_likelihood_score", 0)` and `result.get("items", [])`. -/
structure ResultEntry where
  nsfw_likelihood_score : Option ℚ
  items : List SubItem
  deriving DecidableEq, Repr

/-- The value stored under the `"text__moderation"` key: the code reads
`moderation_results["text__moderation"].get("results", [])`. -/
structure TextModerationSection where
  results : Option (List ResultEntry)
  deriving DecidableEq, Repr

/-- The dictionary `results.get("content", {}).get("results", {})`: the code
only tests membership of the key `"text__moderation"` and reads its value. -/
structure ResultsDict where
  text__moderation : Option TextModerationSection
  deriving DecidableEq, Repr

/-- The `"content"` sub-dictionary of a GET response: the code reads
`.get("status", "")` and `.get("results", {})` on it. -/
structure Content where
  status : Option String
  results : Option ResultsDict
  deriving DecidableEq, Repr

/-- A raw GET response payload, shaped `{"content": {...}}`; the `"content"`
key may be absent (the code uses `result.get("content", {})`). -/
structure ApiResult where
  content : Option Content
  deriving DecidableEq, Repr

/-- A raw POST response; the code only tests for the key `"id"`. -/
structure PostResponse where
  id : Option String
  deriving DecidableEq, Repr

/-- The error kinds raised by the script (in the source they are generic
`Exception`s distinguished by their message). -/
inductive ModerationError where
  | SubmissionError
  | ModerationFailedError (payload : ApiResult)
  | UnexpectedStatusError (status : String)
  | MissingColumnError
  deriving DecidableEq, Repr

/-- `result.get("content", {}).get("status", "")` of `get_moderation_result`. -/
def getStatus (r : ApiResult) : String :=
  ((r.content.bind Content.status).getD "")

/-- `results.get("content", {}).get("results", {})` of
`process_moderation_results`. -/
def getResultsDict (r : ApiResult) : ResultsDict :=
  ((r.content.bind Content.results).getD ⟨none⟩)

/-- `post_text_to_moderate` (scripts.py lines 26-46): sends `text`, and on the
given response returns the `"id"` field or raises the no-ID error.  The text
itself does not influence the outcome; exactly one response is consumed (the
code performs a single `requests.post`, no retry). -/
def post_text_to_moderate (text : String) (response : PostResponse) :
    Except ModerationError String :=
  match text, response.id with
  | _, some i => .ok i
  | _, none => .error .SubmissionError

/-- The fixed sleep interval of the polling loop, in seconds
(`wait_interval = 5`, scripts.py line 63). -/
def wait_interval : Nat := 5

/-- `get_moderation_result` (scripts.py lines 48-77) run against a mocked
sequence of GET responses, one response consumed per loop iteration.  Returns
`none` when every supplied response reports `"processing"` (the real loop
would keep polling).  The `Nat` component counts the executed
`time.sleep(wait_interval)` calls. -/
def get_moderation_result :
    List ApiResult → Option (Except ModerationError ApiResult × Nat)
  | [] => none
  | r :: rest =>
    let status := getStatus r
    if status = "succeeded" then some (.ok r, 0)
    else if status = "failed" then some (.error (.ModerationFailedError r), 0)
    else if status = "processing" then
      (get_moderation_result rest).map (fun p => (p.1, p.2 + 1))
    else some (.error (.UnexpectedStatusError status), 0)

/-- The step of the `for subitem in items` loop of
`process_moderation_results`: the accumulator is
`(highest_category, highest_score)`. -/
def highestStep (acc : String × ℚ) (subitem : SubItem) : String × ℚ :=
  if subitem.likelihood_score.getD 0 > acc.2 then
    (subitem.category.getD "Unknown", subitem.likelihood_score.getD 0)
  else acc

/-- `process_moderation_results` (scripts.py lines 79-107): computes
`(rejection chance, highest category, status)` from a completed payload. -/
def process_moderation_results (results : ApiResult)
    (rejection_threshold : ℚ) : ℚ × String × String :=
  match (getResultsDict results).text__moderation with
  | none => (0, "Unknown", "success")
  | some tm =>
    match tm.results.getD [] with
    | [] => (0, "Unknown", "succeeded")
    | result :: _ =>
      let nsfw_likelihood_score := result.nsfw_likelihood_score.getD 0
      let status :=
        if nsfw_likelihood_score ≥ rejection_threshold then "rejected"
        else "validated"
      let best := result.items.foldl highestStep ("Unknown", (0 : ℚ))
      (nsfw_likelihood_score * 100, best.1, status)

/-- The default `rejection_threshold=0.2` of `process_moderation_results`;
`process_file` and `test_single_text` call it with this default. -/
def default_rejection_threshold : ℚ := 0.2

/-- The first entry of the text-moderation results list of a payload, when it
exists: the entry the `for result in text_results: ... return` loop uses. -/
def firstTextEntry (r : ApiResult) : Option ResultEntry :=
  match (getResultsDict r).text__moderation with
  | none => none
  | some tm => (tm.results.getD []).head?

/-- The mocked network environment of one input row: the response to its POST
and the sequence of responses to its GET polls. -/
structure RowEnv where
  postResponse : PostResponse
  pollResponses : List ApiResult
  deriving DecidableEq, Repr

/-- How the `try` body of one iteration of the `process_file` loop ends:
it hangs in the poll loop, an exception reaches the `except` handler, or the
three result values are computed. -/
inductive RowRun where
  | hang
  | raised
  | value (rejection_chance : ℚ) (category : String) (status : String)
  deriving DecidableEq, Repr

/-- The body of one iteration of the `process_file` loop
(`post_text_to_moderate` then `get_moderation_result` then
`process_moderation_results`, scripts.py lines 131-133), together with the
number of network calls it makes (one POST, plus one GET per poll
iteration). -/
def run_row (text : String) (env : RowEnv) : RowRun × Nat :=
  match post_text_to_moderate text env.postResponse with
  | .error _ => (.raised, 1)
  | .ok _ =>
    match get_moderation_result env.pollResponses with
    | none => (.hang, 1 + env.pollResponses.length)
    | some (.ok payload, sleeps) =>
      let r := process_moderation_results payload default_rejection_threshold
      (.value r.1 r.2.1 r.2.2, 1 + (sleeps + 1))
    | some (.error _, sleeps) => (.raised, 1 + (sleeps + 1))

/-- An input spreadsheet: whether the required column `"Données à tester"`
is present, and that column's values, one per row. -/
structure InputFile where
  hasDataColumn : Bool
  rows : List String
  deriving DecidableEq, Repr

/-- One row of the output spreadsheet: the input text plus the three columns
`"Taux de rejet (%)"`, `"Catégorie"` and `"Status"` appended by
`process_file` (initialised to `0.0`, `""`, `""` before the loop). -/
structure OutputRow where
  donnees : String
  taux_de_rejet : ℚ
  categorie : String
  status : String
  deriving DecidableEq, Repr

/-- The output row produced for one input row from how its `try` body ended:
on an exception only the `"Status"` column is overwritten with `"Error"`,
so the other two keep their initialised defaults.  (The `hang` case never
reaches the output file; its value here is arbitrary.) -/
def rowOutput (text : String) : RowRun → OutputRow
  | .hang => ⟨text, 0, "", ""⟩
  | .raised => ⟨text, 0, "", "Error"⟩
  | .value rc cat st => ⟨text, rc, cat, st⟩

/-- The row loop of `process_file` (scripts.py lines 128-139) over the rows
from index `i` on, with the per-row network environment given by `env`.
Returns `none` when some row's poll loop hangs (the real program would never
terminate), otherwise the produced output rows; the `Nat` component counts
the network calls made. -/
def process_rows (env : Nat → RowEnv) (i : Nat) :
    List String → Option (List OutputRow) × Nat
  | [] => (some [], 0)
  | text :: rest =>
    match run_row text (env i) with
    | (.hang, c) => (none, c)
    | (rr, c) =>
      let tail := process_rows env (i + 1) rest
      (tail.1.map (fun out => rowOutput text rr :: out), c + tail.2)

/-- `process_file` (scripts.py lines 109-142): fails with the missing-column
error before touching any row when the required column is absent, otherwise
runs the row loop.  The `Nat` component counts the network calls made. -/
def process_file (file : InputFile) (env : Nat → RowEnv) :
    Except ModerationError (Option (List OutputRow)) × Nat :=
  if file.hasDataColumn then
    let r := process_rows env 0 file.rows
    (.ok r.1, r.2)
  else (.error .MissingColumnError, 0)

/-- Modelled from the spec: the label of the sub-item with the maximum
likelihood score in a list of `(category, likelihood_score)` pairs, ties
resolved in favour of the first-seen maximum (strict `>` comparison);
`"Unknown"` for the empty list. -/
def firstMaxLabel : List (String × ℚ) → String
  | [] => "Unknown"
  | p :: rest =>
    (rest.foldl (fun acc x => if x.2 > acc.2 then x else acc) p).1

/-- The `(category, likelihood_score)` data of a sub-item, with the defaults
the code applies (`"Unknown"`, `0`). -/
def subitemData (x : SubItem) : String × ℚ :=
  (x.category.getD "Unknown", x.likelihood_score.getD 0)

/-- The polling state machine as the spec describes it: `PollSpec l res n`
says that running the loop against the response sequence `l` terminates with
result `res` after `n` sleeps — a `"succeeded"` response returns the payload,
a `"failed"` response raises the moderation-failed error carrying the raw
payload, any other non-`"processing"` status raises the unexpected-status
error, and a `"processing"` response sleeps once and loops. -/
inductive PollSpec : List ApiResult → Except ModerationError ApiResult → Nat → Prop where
  | succeeded {r : ApiResult} {rest : List ApiResult} :
      getStatus r = "succeeded" → PollSpec (r :: rest) (.ok r) 0
  | failed {r : ApiResult} {rest : List ApiResult} :
      getStatus r = "failed" →
      PollSpec (r :: rest) (.error (.ModerationFailedError r)) 0
  | unexpected {r : ApiResult} {rest : List ApiResult} :
      getStatus r ≠ "succeeded" → getStatus r ≠ "failed" →
      getStatus r ≠ "processing" →
      PollSpec (r :: rest) (.error (.UnexpectedStatusError (getStatus r))) 0
  | looping {r : ApiResult} {rest : List ApiResult}
      {res : Except ModerationError ApiResult} {n : Nat} :
      getStatus r = "processing" → PollSpec rest res n →
      PollSpec (r :: rest) res (n + 1)

/-- A GET payload whose `"content"."results"."text__moderation"."results"`
list is `entries` and whose status is `"succeeded"`. -/
def mkPayload (entries : List ResultEntry) : ApiResult :=
  ⟨some ⟨some "succeeded", some ⟨some ⟨some entries⟩⟩⟩⟩

/-- A GET payload carrying only a status. -/
def statusPayload (s : String) : ApiResult :=
  ⟨some ⟨some s, none⟩⟩

/-- Fixture: a first result entry whose only sub-item is labelled `"A"` with
likelihood score `0`. -/
def zeroScoreEntry : ResultEntry := ⟨none, [⟨some "A", some 0⟩]⟩

/-- Fixture: a first result entry with sub-items `A:0.3`, `B:0.9`, `C:0.9`. -/
def abcEntry : ResultEntry :=
  ⟨some 0.5, [⟨some "A", some 0.3⟩, ⟨some "B", some 0.9⟩, ⟨some "C", some 0.9⟩]⟩

/-- Fixture: a row environment whose POST response has no `"id"` field. -/
def failEnv : RowEnv := ⟨⟨none⟩, []⟩

/-- Fixture: a row environment that submits successfully and whose single
poll response succeeds (with a payload carrying no results section). -/
def okEnv : RowEnv := ⟨⟨some "exec-1"⟩, [statusPayload "succeeded"]⟩

/-- Fixture: a batch network environment where row 1 (0-based) fails at
submission and every other row succeeds. -/
def mixedEnv : Nat → RowEnv :=
  fun i => if i = 1 then failEnv else okEnv

lemma pollSpec_of_run :
    ∀ {l : List ApiResult} {res : Except ModerationError ApiResult} {n : Nat},
      get_moderation_result l = some (res, n) → PollSpec l res n := by
  intro l
  induction l with
  | nil => intro res n h; simp [get_moderation_result] at h
  | cons r rest ih =>
    intro res n h
    by_cases h1 : getStatus r = "succeeded"
    · simp [get_moderation_result, h1] at h
      obtain ⟨rfl, rfl⟩ := h
      exact .succeeded h1
    · by_cases h2 : getStatus r = "failed"
      · simp [get_moderation_result, h1, h2] at h
        obtain ⟨rfl, rfl⟩ := h
        exact .failed h2
      · by_cases h3 : getStatus r = "processing"
        · have hstep : get_moderation_result (r :: rest) =
              (get_moderation_result rest).map (fun p => (p.1, p.2 + 1)) := by
            simp [get_moderation_result, h1, h2, h3]
          rw [hstep, Option.map_eq_some'] at h
          obtain ⟨⟨res', n'⟩, hrec, heq⟩ := h
          simp only [Prod.mk.injEq] at heq
          obtain ⟨rfl, rfl⟩ := heq
          exact .looping h3 (ih hrec)
        · simp [get_moderation_result, h1, h2, h3] at h
          obtain ⟨rfl, rfl⟩ := h
          exact .unexpected h1 h2 h3

lemma run_of_pollSpec :
    ∀ {l : List ApiResult} {res : Except ModerationError ApiResult} {n : Nat},
      PollSpec l res n → get_moderation_result l = some (res, n) := by
  intro l res n h
  induction h with
  | succeeded h1 => simp [get_moderation_result, h1]
  | failed h1 => simp [get_moderation_result, h1]
  | unexpected h1 h2 h3 => simp [get_moderation_result, h1, h2, h3]
  | looping h1 _ ih => simp [get_moderation_result, h1, ih]

lemma run_none_iff :
    ∀ {l : List ApiResult},
      get_moderation_result l = none ↔ ∀ x ∈ l, getStatus x = "processing" := by
  intro l
  induction l with
  | nil => simp [get_moderation_result]
  | cons r rest ih =>
    by_cases h1 : getStatus r = "succeeded"
    · simp [get_moderation_result, h1]
    · by_cases h2 : getStatus r = "failed"
      · simp [get_moderation_result, h1, h2]
      · by_cases h3 : getStatus r = "processing"
        · simp [get_moderation_result, h1, h2, h3, Option.map_eq_none', ih]
        · simp [get_moderation_result, h1, h2, h3]

/-- Claim C2: for every sequence of poll responses, `get_moderation_result`
returns the payload exactly when its reported status is `"succeeded"`, fails
with the moderation-failed error carrying the raw payload exactly when the
status is `"failed"`, fails with the unexpected-status error on any other
non-`"processing"` status, and keeps looping (never terminates) exactly when
every observed status is `"processing"`. -/
theorem poll_state_machine (l : List ApiResult) :
    (∀ (res : Except ModerationError ApiResult) (n : Nat),
      get_moderation_result l = some (res, n) ↔ PollSpec l res n) ∧
    (get_moderation_result l = none ↔ ∀ x ∈ l, getStatus x = "processing") :=
  ⟨fun _ _ => ⟨pollSpec_of_run, run_of_pollSpec⟩, run_none_iff⟩

/-- Claim C9: observing `[processing, processing, succeeded]`, the poll loop
returns the succeeded payload after exactly two sleeps, each of the fixed
`wait_interval = 5` seconds. -/
theorem poll_sleep_count (p1 p2 p3 : ApiResult)
    (h1 : getStatus p1 = "processing") (h2 : getStatus p2 = "processing")
    (h3 : getStatus p3 = "succeeded") :
    get_moderation_result [p1, p2, p3] = some (.ok p3, 2) ∧
    wait_interval = 5 := by
  refine ⟨?_, rfl⟩
  simp [get_moderation_result, h1, h2, h3]

theorem poll_sleep_count_witness :
    get_moderation_result [statusPayload "processing", statusPayload "processing",
      statusPayload "succeeded"] = some (.ok (statusPayload "succeeded"), 2) ∧
    wait_interval = 5 :=
  poll_sleep_count (statusPayload "processing") (statusPayload "processing")
    (statusPayload "succeeded") rfl rfl rfl

lemma process_first_entry (r : ApiResult) (e : ResultEntry)
    (hfirst : firstTextEntry r = some e) (t : ℚ) :
    process_moderation_results r t =
      (e.nsfw_likelihood_score.getD 0 * 100,
       (e.items.foldl highestStep ("Unknown", (0 : ℚ))).1,
       if e.nsfw_likelihood_score.getD 0 ≥ t then "rejected"
       else "validated") := by
  cases htm : (getResultsDict r).text__moderation with
  | none => simp [firstTextEntry, htm] at hfirst
  | some tm =>
    simp only [firstTextEntry, htm] at hfirst
    cases hres : tm.results.getD [] with
    | nil => rw [hres] at hfirst; simp at hfirst
    | cons e0 rest =>
      rw [hres] at hfirst
      simp at hfirst
      subst hfirst
      simp [process_moderation_results, htm, hres]

/-- Claim C1: for every payload whose first text-moderation result entry
carries an nsfw likelihood score `s` and every threshold `t`, the interpreter
returns rejection percentage `s * 100` and status `"rejected"` iff `s ≥ t`,
else `"validated"`; in particular `s = 0.5, t = 0.2` gives `("rejected", 50)`
and `s = 0.1, t = 0.2` gives `("validated", 10)`. -/
theorem interpret_rejection_percentage_and_status (r : ApiResult)
    (e : ResultEntry) (s t : ℚ) (hfirst : firstTextEntry r = some e)
    (hscore : e.nsfw_likelihood_score = some s) :
    (process_moderation_results r t).1 = s * 100 ∧
    (process_moderation_results r t).2.2 =
      (if s ≥ t then "rejected" else "validated") ∧
    (process_moderation_results (mkPayload [⟨some 0.5, []⟩]) 0.2).1 = 50 ∧
    (process_moderation_results (mkPayload [⟨some 0.5, []⟩]) 0.2).2.2 =
      "rejected" ∧
    (process_moderation_results (mkPayload [⟨some 0.1, []⟩]) 0.2).1 = 10 ∧
    (process_moderation_results (mkPayload [⟨some 0.1, []⟩]) 0.2).2.2 =
      "validated" := by
  rw [process_first_entry r e hfirst t,
    process_first_entry (mkPayload [⟨some 0.5, []⟩]) ⟨some 0.5, []⟩ rfl 0.2,
    process_first_entry (mkPayload [⟨some 0.1, []⟩]) ⟨some 0.1, []⟩ rfl 0.2]
  refine ⟨by simp [hscore], by simp [hscore], ?_, ?_, ?_, ?_⟩ <;> norm_num

theorem interpret_rejection_percentage_and_status_witness :
    (process_moderation_results (mkPayload [⟨some 0.5, []⟩]) 0.2).1 =
      0.5 * 100 ∧
    (process_moderation_results (mkPayload [⟨some 0.5, []⟩]) 0.2).2.2 =
      (if (0.5 : ℚ) ≥ 0.2 then "rejected" else "validated") :=
  ⟨(interpret_rejection_percentage_and_status (mkPayload [⟨some 0.5, []⟩])
      ⟨some 0.5, []⟩ 0.5 0.2 rfl rfl).1,
   (interpret_rejection_percentage_and_status (mkPayload [⟨some 0.5, []⟩])
      ⟨some 0.5, []⟩ 0.5 0.2 rfl rfl).2.1⟩

/-- Claim C6: a payload lacking the text-moderation section yields exactly
`(0, "Unknown", "success")`; a payload whose text-moderation results list is
present but empty yields exactly `(0, "Unknown", "succeeded")`; the two
success strings differ literally. -/
theorem interpret_missing_and_empty_results (r : ApiResult) (t : ℚ) :
    ((getResultsDict r).text__moderation = none →
      process_moderation_results r t = (0, "Unknown", "success")) ∧
    (∀ tm : TextModerationSection,
      (getResultsDict r).text__moderation = some tm → tm.results = some [] →
      process_moderation_results r t = (0, "Unknown", "succeeded")) ∧
    ("success" : String) ≠ "succeeded" := by
  refine ⟨?_, ?_, by decide⟩
  · intro h
    simp [process_moderation_results, h]
  · intro tm h1 h2
    simp [process_moderation_results, h1, h2]

theorem interpret_missing_and_empty_results_witness :
    process_moderation_results ⟨none⟩ 1 = (0, "Unknown", "success") ∧
    process_moderation_results (mkPayload []) 1 = (0, "Unknown", "succeeded") :=
  ⟨(interpret_missing_and_empty_results ⟨none⟩ 1).1 rfl,
   (interpret_missing_and_empty_results (mkPayload []) 1).2.1 ⟨some []⟩ rfl rfl⟩

lemma foldl_highestStep_fixed :
    ∀ (l : List SubItem) (acc : String × ℚ),
      (∀ x ∈ l, ¬ acc.2 < x.likelihood_score.getD 0) →
      l.foldl highestStep acc = acc := by
  intro l
  induction l with
  | nil => intro acc _; rfl
  | cons y t ih =>
    intro acc hle
    have hy : ¬ acc.2 < y.likelihood_score.getD 0 := hle y (by simp)
    have hstep : highestStep acc y = acc := by simp [highestStep, hy]
    rw [List.foldl_cons, hstep]
    exact ih acc (fun x hx => hle x (by simp [hx]))

lemma foldl_highestStep_congr :
    ∀ (l : List SubItem) (a b : String × ℚ), b.2 ≤ a.2 →
      (∃ x ∈ l, a.2 < x.likelihood_score.getD 0) →
      l.foldl highestStep a = l.foldl highestStep b := by
  intro l
  induction l with
  | nil => intro a b _ hex; simp at hex
  | cons y t ih =>
    intro a b hba hex
    by_cases hy : a.2 < y.likelihood_score.getD 0
    · have hyb : b.2 < y.likelihood_score.getD 0 := lt_of_le_of_lt hba hy
      simp [List.foldl_cons, highestStep, hy, hyb]
    · obtain ⟨x, hx, hxa⟩ := hex
      rcases List.mem_cons.mp hx with rfl | hx
      · exact absurd hxa hy
      · have hstepa : highestStep a y = a := by simp [highestStep, hy]
        by_cases hyb : b.2 < y.likelihood_score.getD 0
        · have hstepb : highestStep b y =
              (y.category.getD "Unknown", y.likelihood_score.getD 0) := by
            simp [highestStep, hyb]
          rw [List.foldl_cons, List.foldl_cons, hstepa, hstepb]
          exact ih a _ (not_lt.mp hy) ⟨x, hx, hxa⟩
        · have hstepb : highestStep b y = b := by simp [highestStep, hyb]
          rw [List.foldl_cons, List.foldl_cons, hstepa, hstepb]
          exact ih a b hba ⟨x, hx, hxa⟩

lemma foldl_highestStep_firstMaxLabel :
    ∀ l : List SubItem, (∃ x ∈ l, 0 < x.likelihood_score.getD 0) →
      (l.foldl highestStep ("Unknown", (0 : ℚ))).1 =
        firstMaxLabel (l.map subitemData) := by
  intro l hpos
  cases l with
  | nil => simp at hpos
  | cons h tl =>
    have hmap : firstMaxLabel ((h :: tl).map subitemData) =
        (tl.foldl highestStep (subitemData h)).1 := by
      simp only [List.map_cons, firstMaxLabel, List.foldl_map]
      rfl
    rw [hmap]
    by_cases hh : (0 : ℚ) < h.likelihood_score.getD 0
    · have hstep : highestStep ("Unknown", (0 : ℚ)) h = subitemData h := by
        simp [highestStep, subitemData, hh]
      rw [List.foldl_cons, hstep]
    · obtain ⟨x, hx, hxpos⟩ := hpos
      rcases List.mem_cons.mp hx with rfl | hx
      · exact absurd hxpos hh
      · have hstep : highestStep ("Unknown", (0 : ℚ)) h =
            ("Unknown", (0 : ℚ)) := by simp [highestStep, hh]
        rw [List.foldl_cons, hstep,
          foldl_highestStep_congr tl ("Unknown", (0 : ℚ)) (subitemData h)
            (by simpa [subitemData] using not_lt.mp hh) ⟨x, hx, hxpos⟩]

/-- Claim C10: when the first result entry has sub-items but every sub-item's
likelihood score is 0 (or missing, defaulting to 0), the interpreter returns
category `"Unknown"`: a zero-score sub-item never beats the initial highest
score of 0 under the strict comparison. -/
theorem interpret_all_zero_scores_unknown (r : ApiResult) (e : ResultEntry)
    (t : ℚ) (hfirst : firstTextEntry r = some e)
    (hall : ∀ x ∈ e.items, x.likelihood_score.getD 0 = 0) :
    (process_moderation_results r t).2.1 = "Unknown" := by
  rw [process_first_entry r e hfirst t]
  rw [foldl_highestStep_fixed e.items ("Unknown", (0 : ℚ))
    (fun x hx => by simp [hall x hx])]

theorem interpret_all_zero_scores_unknown_witness :
    (process_moderation_results (mkPayload [zeroScoreEntry]) 1).2.1 =
      "Unknown" :=
  interpret_all_zero_scores_unknown (mkPayload [zeroScoreEntry]) zeroScoreEntry
    1 rfl (by intro x hx; simp [zeroScoreEntry] at hx; subst hx; rfl)

/-- Claim C5 (amended): for every first result entry, the interpreter returns
as category the label of the sub-item with the maximum likelihood score,
first-seen maximum winning ties (strict `>` comparison), provided some
sub-item has a strictly positive score; for sub-items
`[A:0.3, B:0.9, C:0.9]` the category is `"B"`; if no sub-items exist the
category is `"Unknown"`. -/
theorem interpret_highest_category (r : ApiResult) (e : ResultEntry) (t : ℚ)
    (hfirst : firstTextEntry r = some e) :
    ((∃ x ∈ e.items, 0 < x.likelihood_score.getD 0) →
      (process_moderation_results r t).2.1 =
        firstMaxLabel (e.items.map subitemData)) ∧
    (e.items = [] → (process_moderation_results r t).2.1 = "Unknown") ∧
    (process_moderation_results (mkPayload [abcEntry])
        default_rejection_threshold).2.1 = "B" := by
  rw [process_first_entry r e hfirst t,
    process_first_entry (mkPayload [abcEntry]) abcEntry rfl
      default_rejection_threshold]
  refine ⟨?_, ?_, ?_⟩
  · intro hpos
    exact foldl_highestStep_firstMaxLabel e.items hpos
  · intro h
    simp [h]
  · norm_num [abcEntry, highestStep]

theorem interpret_highest_category_witness :
    (process_moderation_results (mkPayload [abcEntry])
        default_rejection_threshold).2.1 =
      firstMaxLabel (abcEntry.items.map subitemData) ∧
    firstMaxLabel (abcEntry.items.map subitemData) = "B" :=
  ⟨(interpret_highest_category (mkPayload [abcEntry]) abcEntry
      default_rejection_threshold rfl).1
      ⟨⟨some "B", some 0.9⟩, by simp [abcEntry], by norm_num⟩,
   by norm_num [abcEntry, firstMaxLabel, subitemData]⟩

/-- Claim C5 counterexample: for the first result entry whose single sub-item
is labelled `"A"` with likelihood score `0`, the sub-item list is non-empty
and the sub-item with the maximum likelihood score is labelled `"A"`, yet the
interpreter returns category `"Unknown"`, not `"A"`. -/
theorem interpret_highest_category_zero_cex :
    firstTextEntry (mkPayload [zeroScoreEntry]) = some zeroScoreEntry ∧
    zeroScoreEntry.items ≠ [] ∧
    firstMaxLabel (zeroScoreEntry.items.map subitemData) = "A" ∧
    (process_moderation_results (mkPayload [zeroScoreEntry])
        default_rejection_threshold).2.1 = "Unknown" ∧
    ("Unknown" : String) ≠ "A" := by
  refine ⟨rfl, by simp [zeroScoreEntry], rfl, ?_, by decide⟩
  rw [process_first_entry (mkPayload [zeroScoreEntry]) zeroScoreEntry rfl
    default_rejection_threshold]
  simp [zeroScoreEntry, highestStep]

/-- Claim C8: for every text, submission fails with the submission error
exactly when the API response contains no `"id"` field, and otherwise returns
the identifier from that field (a single response is consumed either way —
the embedding takes exactly one `PostResponse`, mirroring the single
un-retried POST of the code). -/
theorem submit_requires_id (text : String) (response : PostResponse) :
    (post_text_to_moderate text response =
        .error ModerationError.SubmissionError ↔ response.id = none) ∧
    (∀ i, response.id = some i →
      post_text_to_moderate text response = .ok i) := by
  obtain ⟨id⟩ := response
  cases id <;> simp [post_text_to_moderate]

theorem submit_requires_id_witness :
    post_text_to_moderate "sample" ⟨none⟩ =
      .error ModerationError.SubmissionError ∧
    post_text_to_moderate "sample" ⟨some "exec-9"⟩ = .ok "exec-9" :=
  ⟨(submit_requires_id "sample" ⟨none⟩).1.mpr rfl,
   (submit_requires_id "sample" ⟨some "exec-9"⟩).2 "exec-9" rfl⟩

/-- Claim C7: on an input file lacking the required text column, the batch
runner fails with the missing-column error, with zero network calls made (so
before any row is processed and before any submit or poll). -/
theorem missing_column_fails_before_network (file : InputFile)
    (env : Nat → RowEnv) (h : file.hasDataColumn = false) :
    process_file file env = (.error ModerationError.MissingColumnError, 0) := by
  simp [process_file, h]

theorem missing_column_fails_before_network_witness :
    process_file ⟨false, ["a", "b"]⟩ (fun _ => okEnv) =
      (.error ModerationError.MissingColumnError, 0) :=
  missing_column_fails_before_network ⟨false, ["a", "b"]⟩ (fun _ => okEnv) rfl

lemma process_rows_cons_ne_hang (env : Nat → RowEnv) (i : Nat) (text : String)
    (rest : List String) (rr : RowRun) (c0 : Nat)
    (hrun : run_row text (env i) = (rr, c0)) (hne : rr ≠ RowRun.hang) :
    process_rows env i (text :: rest) =
      ((process_rows env (i + 1) rest).1.map
        (fun out => rowOutput text rr :: out),
       c0 + (process_rows env (i + 1) rest).2) := by
  cases rr with
  | hang => exact absurd rfl hne
  | raised => simp [process_rows, hrun]
  | value rc cat st => simp [process_rows, hrun]

lemma process_rows_spec (env : Nat → RowEnv) :
    ∀ (rows : List String) (i : Nat) (out : List OutputRow) (c : Nat),
      process_rows env i rows = (some out, c) →
      out.length = rows.length ∧
      ∀ j, j < rows.length →
        (run_row (rows.getD j "") (env (i + j))).1 ≠ RowRun.hang ∧
        out.get? j = some (rowOutput (rows.getD j "")
          (run_row (rows.getD j "") (env (i + j))).1) := by
  intro rows
  induction rows with
  | nil =>
    intro i out c h
    simp [process_rows] at h
    obtain ⟨rfl, rfl⟩ := h
    simp
  | cons text rest ih =>
    intro i out c h
    rcases hrun : run_row text (env i) with ⟨rr, c0⟩
    by_cases hne : rr = RowRun.hang
    · subst hne
      simp [process_rows, hrun] at h
    · rw [process_rows_cons_ne_hang env i text rest rr c0 hrun hne] at h
      rcases htail : process_rows env (i + 1) rest with ⟨tr, tc⟩
      rw [htail] at h
      simp only [Prod.mk.injEq] at h
      obtain ⟨hmap, hc⟩ := h
      rw [Option.map_eq_some'] at hmap
      obtain ⟨out', htr, rfl⟩ := hmap
      obtain ⟨hlen, hj⟩ := ih (i + 1) out' tc (by rw [htail, htr])
      constructor
      · simp [hlen]
      · intro j hjlt
        cases j with
        | zero =>
          refine ⟨?_, ?_⟩
          · rw [Nat.add_zero, List.getD_cons_zero, hrun]
            exact hne
          · rw [Nat.add_zero, List.getD_cons_zero, hrun]
            rfl
        | succ j =>
          have hjlt' : j < rest.length := by
            simpa using Nat.lt_of_succ_lt_succ (by simpa using hjlt)
          obtain ⟨h1, h2⟩ := hj j hjlt'
          have hidx : i + (j + 1) = i + 1 + j := by omega
          refine ⟨?_, ?_⟩
          · rw [List.getD_cons_succ, hidx]
            exact h1
          · rw [List.getD_cons_succ, hidx, List.get?_cons_succ]
            exact h2

/-- Claim C3 (amended): every input row produces exactly one output row, even
when its processing fails; a failed row's output has status `"Error"`,
rejection score 0, and category `""` — the empty string the column was
initialised with, not `"Unknown"`. -/
theorem batch_one_outcome_per_row (file : InputFile) (env : Nat → RowEnv)
    (out : List OutputRow) (c : Nat)
    (hrun : process_file file env = (.ok (some out), c)) :
    out.length = file.rows.length ∧
    ∀ j, j < file.rows.length →
      (run_row (file.rows.getD j "") (env j)).1 = RowRun.raised →
      out.get? j = some ⟨file.rows.getD j "", 0, "", "Error"⟩ := by
  by_cases hcol : file.hasDataColumn = true
  · rcases hpr : process_rows env 0 file.rows with ⟨pr1, pr2⟩
    simp only [process_file, hcol, if_true, hpr, Prod.mk.injEq,
      Except.ok.injEq] at hrun
    obtain ⟨rfl, rfl⟩ := hrun
    obtain ⟨hlen, hj⟩ := process_rows_spec env file.rows 0 out pr2 hpr
    refine ⟨hlen, ?_⟩
    intro j hjlt hraised
    have hout := (hj j hjlt).2
    rw [Nat.zero_add] at hout
    rw [hout, hraised]
    rfl
  · simp [process_file, hcol] at hrun

/-- Claim C3 counterexample: in a one-row batch whose submission response has
no `"id"`, the errored row's category column is the empty string, not
`"Unknown"` as the claim states. -/
theorem batch_failed_row_category_cex :
    (run_row "t" failEnv).1 = RowRun.raised ∧
    process_file ⟨true, ["t"]⟩ (fun _ => failEnv) =
      (.ok (some [⟨"t", 0, "", "Error"⟩]), 1) ∧
    ("" : String) ≠ "Unknown" :=
  ⟨rfl, rfl, by decide⟩

theorem batch_one_outcome_per_row_witness :
    ([(⟨"t", 0, "", "Error"⟩ : OutputRow)] : List OutputRow).length = 1 ∧
    ([(⟨"t", 0, "", "Error"⟩ : OutputRow)] : List OutputRow).get? 0 =
      some ⟨"t", 0, "", "Error"⟩ := by
  have h := batch_one_outcome_per_row ⟨true, ["t"]⟩ (fun _ => failEnv)
    [⟨"t", 0, "", "Error"⟩] 1 rfl
  exact ⟨h.1, h.2 0 (by decide) rfl⟩

/-- Claim C4: a row failure (here: submit raising at row 2 of 3) is caught at
that row's boundary — its status is set to `"Error"` — and processing
continues: the output table has all 3 rows, rows 1 and 3 holding their
computed values. -/
theorem batch_per_row_isolation (t1 t2 t3 : String) (env : Nat → RowEnv)
    (rc1 rc3 : ℚ) (c1 s1 c3 s3 : String)
    (h2 : (env 1).postResponse.id = none)
    (h1 : (run_row t1 (env 0)).1 = RowRun.value rc1 c1 s1)
    (h3 : (run_row t3 (env 2)).1 = RowRun.value rc3 c3 s3) :
    (process_file ⟨true, [t1, t2, t3]⟩ env).1 =
      .ok (some [⟨t1, rc1, c1, s1⟩, ⟨t2, 0, "", "Error"⟩,
        ⟨t3, rc3, c3, s3⟩]) ∧
    ∀ (file : InputFile) (env' : Nat → RowEnv) (out : List OutputRow)
      (c : Nat), process_file file env' = (.ok (some out), c) →
      ∀ j, j < file.rows.length →
        ((run_row (file.rows.getD j "") (env' j)).1 = RowRun.raised →
          out.get? j = some ⟨file.rows.getD j "", 0, "", "Error"⟩) ∧
        ∀ rc cat st,
          (run_row (file.rows.getD j "") (env' j)).1 = RowRun.value rc cat st →
          out.get? j = some ⟨file.rows.getD j "", rc, cat, st⟩ := by
  constructor
  · have hrow2 : run_row t2 (env 1) = (.raised, 1) := by
      simp [run_row, post_text_to_moderate, h2]
    rcases hr1 : run_row t1 (env 0) with ⟨rr1, k1⟩
    rcases hr3 : run_row t3 (env 2) with ⟨rr3, k3⟩
    rw [hr1] at h1
    rw [hr3] at h3
    simp only at h1 h3
    subst h1
    subst h3
    simp [process_file, process_rows, hr1, hrow2, hr3, rowOutput]
  · intro file env' out c hrun j hjlt
    by_cases hcol : file.hasDataColumn = true
    · rcases hpr : process_rows env' 0 file.rows with ⟨pr1, pr2⟩
      simp only [process_file, hcol, if_true, hpr, Prod.mk.injEq,
        Except.ok.injEq] at hrun
      obtain ⟨rfl, rfl⟩ := hrun
      have hout :=
        ((process_rows_spec env' file.rows 0 out pr2 hpr).2 j hjlt).2
      rw [Nat.zero_add] at hout
      constructor
      · intro hraised
        rw [hout, hraised]
        rfl
      · intro rc cat st hval
        rw [hout, hval]
        rfl
    · simp [process_file, hcol] at hrun

theorem batch_per_row_isolation_witness :
    (process_file ⟨true, ["a", "b", "c"]⟩ mixedEnv).1 =
      .ok (some [⟨"a", 0, "Unknown", "success"⟩, ⟨"b", 0, "", "Error"⟩,
        ⟨"c", 0, "Unknown", "success"⟩]) :=
  (batch_per_row_isolation "a" "b" "c" mixedEnv 0 0 "Unknown" "success"
    "Unknown" "success" rfl rfl rfl).1
